import Mathlib

namespace UltraLight

mutual

inductive JSVal : Type where
  | vnull : JSVal
  | vundef : JSVal
  | vbool : Bool → JSVal
  | vnum : Int → JSVal
  | vstr : String → JSVal
  | vobj : Bool → JSFields → JSVal

inductive JSFields : Type where
  | fnil : JSFields
  | fcons : String → JSVal → JSFields → JSFields

end

deriving instance DecidableEq for JSVal
deriving instance DecidableEq for JSFields

def typeofJS : JSVal → String
  | .vnull => "object"
  | .vundef => "undefined"
  | .vbool _ => "boolean"
  | .vnum _ => "number"
  | .vstr _ => "string"
  | .vobj _ _ => "object"

def jsEq : JSVal → JSVal → Bool
  | .vnull, .vnull => true
  | .vundef, .vundef => true
  | .vbool a, .vbool b => a == b
  | .vnum a, .vnum b => a == b
  | .vstr a, .vstr b => a == b
  | _, _ => false

def splitSlashAux : List Char → List Char → List String
  | [], acc => [String.mk acc.reverse]
  | c :: cs, acc =>
    if c = '/' then String.mk acc.reverse :: splitSlashAux cs []
    else splitSlashAux cs (c :: acc)

def splitPath (s : String) : List String :=
  (splitSlashAux s.toList []).filter (fun p => p ≠ "")

def isParamSeg (s : String) : Bool :=
  match s.toList with
  | ':' :: _ => true
  | _ => false

def paramName (s : String) : String :=
  String.mk (s.toList.drop 1)

/-- A JS primitive in the sense of the language: every value except a proper
object. Note that null is a primitive even though the typeof operator reports
the string object for it. This definition is used to state claims about
primitives; the source code itself tests typeof, not primitiveness. -/
def isPrimitive : JSVal → Bool
  | .vobj _ _ => false
  | _ => true

mutual

/-- Embedding of deepFreeze: recursively freeze every field of an object, then
freeze the object itself. Non-objects and null are returned unchanged. The
frozen flag on vobj models Object.isFrozen; a frozen object ignores mutation
attempts in JS, so a value whose every object part is frozen is immutable. -/
def deepFreeze : JSVal → JSVal
  | .vobj _ fields => .vobj true (deepFreezeFields fields)
  | v => v

def deepFreezeFields : JSFields → JSFields
  | .fnil => .fnil
  | .fcons k v rest => .fcons k (deepFreeze v) (deepFreezeFields rest)

end

mutual

/-- True when every object reachable inside the value carries the frozen flag,
i.e. no mutation attempt anywhere in the value can have an effect. -/
def allFrozen : JSVal → Bool
  | .vobj frozen fields => frozen && allFrozenFields fields
  | _ => true

def allFrozenFields : JSFields → Bool
  | .fnil => true
  | .fcons _ v rest => allFrozen v && allFrozenFields rest

end

mutual

/-- Erases every frozen flag. Two values equal after stripFreeze are the same
JS value up to frozenness metadata: in the browser, Object.freeze mutates the
object in place and returns the same reference. -/
def stripFreeze : JSVal → JSVal
  | .vobj _ fields => .vobj false (stripFreezeFields fields)
  | v => v

def stripFreezeFields : JSFields → JSFields
  | .fnil => .fnil
  | .fcons k v rest => .fcons k (stripFreeze v) (stripFreezeFields rest)

end

/-! ## ultraState: the ReactiveCell -/

/-- State of one cell created by ultraState: the held value and the subscriber
set. Subscribers are identified by Nat; the JS Set is modelled as a list in
insertion order with no duplicates (adding dedups, as Set.add does). -/
structure CellState where
  value : JSVal
  subscribers : List Nat
deriving DecidableEq

/-- The value actually stored (and passed to subscribers) for an incoming
value: embeds the conditional
typeof v === object and v !== null ? deepFreeze(v) : v
used by ultraState for both the initial value and every set value. -/
def storeVal (v : JSVal) : JSVal :=
  if typeofJS v == "object" && !(v == .vnull) then deepFreeze v else v

/-- Embedding of the ultraState factory: the initial value is deep-frozen when
it is a non-null object; the subscriber set starts empty. -/
def mkCell (initialValue : JSVal) : CellState :=
  { value := storeVal initialValue, subscribers := [] }

/-- Embedding of the setValue closure of ultraState. Returns the new cell
state together with the list of fire events (subscriber, delivered value), in
iteration order. The guard mirrors
if (typeof value !== object and value === newValue) return
so the skip applies only when the CURRENT value has a non-object typeof and is
identical (===) to the incoming value. Each subscriber call is wrapped in
try/catch in the source, so every subscriber receives exactly one event
regardless of exceptions thrown by earlier subscribers. -/
def cellSet (st : CellState) (newValue : JSVal) : CellState × List (Nat × JSVal) :=
  if typeofJS st.value != "object" && jsEq st.value newValue then (st, [])
  else
    let v := storeVal newValue
    ({ value := v, subscribers := st.subscribers },
     st.subscribers.map (fun s => (s, v)))

/-- Embedding of subscribe: Set.add semantics, dedup by identity, insertion
order preserved. -/
def cellSubscribe (st : CellState) (f : Nat) : CellState :=
  if f ∈ st.subscribers then st
  else { st with subscribers := st.subscribers ++ [f] }

/-- Embedding of the returned unsubscribe handle: Set.delete. -/
def cellUnsub (st : CellState) (f : Nat) : CellState :=
  { st with subscribers := st.subscribers.filter (fun g => g ≠ f) }

/-- Folds a list of subscribe calls over a cell. -/
def applySubs (st : CellState) : List Nat → CellState
  | [] => st
  | f :: fs => applySubs (cellSubscribe st f) fs

/-- Folds a list of set calls over a cell, accumulating every fire event. -/
def applySets (st : CellState) : List JSVal → CellState × List (Nat × JSVal)
  | [] => (st, [])
  | v :: vs =>
    let r := cellSet st v
    let rest := applySets r.1 vs
    (rest.1, r.2 ++ rest.2)

/-! ## UltraContext: the ScopedContext

DOM nodes are identified by Nat. The platform containment primitive
owner.contains(candidate) (true for the owner itself and its descendants) is
passed as an explicit function parameter, following the design note of the
spec that recommends injecting the containment relation. -/

/-- State of one UltraContext: display name, owner node (at most once
assigned), the assigned flag the source keeps separately, the held value and
the subscriber set. -/
structure CtxState where
  displayName : String
  owner : Option Nat
  assigned : Bool
  value : JSVal
  subscribers : List Nat
deriving DecidableEq

/-- Embedding of canReach: no owner means every candidate (including none) is
reachable; with an owner, a missing candidate is unreachable and a present one
is reachable iff the owner contains it. -/
def canReach (contains : Nat → Nat → Bool) (st : CtxState) (candidate : Option Nat) : Bool :=
  match st.owner with
  | none => true
  | some o =>
    match candidate with
    | none => false
    | some c => contains o c

/-- Embedding of getValue: unreachable reads return the STRING undefined
(the source returns the literal "undefined" cast to T). -/
def ctxGet (contains : Nat → Nat → Bool) (st : CtxState) (candidate : Option Nat) : JSVal :=
  if canReach contains st candidate then st.value else .vstr "undefined"

/-- Embedding of setValue: unreachable writes are dropped; reachable writes
use the same typeof-guarded skip as ultraState (but no deepFreeze here), then
fire every subscriber with the new value. -/
def ctxSet (contains : Nat → Nat → Bool) (st : CtxState) (newValue : JSVal)
    (candidate : Option Nat) : CtxState × List (Nat × JSVal) :=
  if !(canReach contains st candidate) then (st, [])
  else if typeofJS st.value != "object" && jsEq st.value newValue then (st, [])
  else
    ({ st with value := newValue }, st.subscribers.map (fun s => (s, newValue)))

/-- Embedding of subscribe: the Bool records whether the function was actually
registered (true) or the no-op unsubscribe path was taken (false). -/
def ctxSubscribe (contains : Nat → Nat → Bool) (st : CtxState) (f : Nat)
    (candidate : Option Nat) : CtxState × Bool :=
  if !(canReach contains st candidate) then (st, false)
  else if f ∈ st.subscribers then (st, true)
  else ({ st with subscribers := st.subscribers ++ [f] }, true)

/-- The ownership-conflict message thrown by own on an already-assigned
context, built exactly as the source template builds it; tagName gives each
node a tag name and the JS expression owner?.tagName || null yields the text
null when there is no owner or its tag name is the empty string. -/
def ownErrMsg (tagName : Nat → String) (st : CtxState) : String :=
  "UltraContext: context owner for \"" ++ st.displayName
    ++ "\" cannot be reassigned.\n" ++ "Current owner: "
    ++ (match st.owner with
        | some o => if tagName o == "" then "null" else tagName o
        | none => "null")
    ++ "."

/-- Embedding of own: the first component is the thrown error message when the
context is already assigned (none means the call returned normally); a failed
call leaves the state untouched, a successful one records the owner and sets
the assigned flag. -/
def ctxOwn (tagName : Nat → String) (st : CtxState) (newOwner : Nat) :
    Option String × CtxState :=
  if st.assigned then (some (ownErrMsg tagName st), st)
  else (none, { st with owner := some newOwner, assigned := true })

/-- Same context with the owner erased: the un-scoped twin used to state that
reachable calls behave like calls on a context that was never owned. -/
def eraseOwner (st : CtxState) : CtxState :=
  { st with owner := none }

/-- Observables of a set call: resulting value, resulting subscriber set, fire
events. (The owner field is deliberately not an observable.) -/
def setObs (r : CtxState × List (Nat × JSVal)) : JSVal × List Nat × List (Nat × JSVal) :=
  (r.1.value, r.1.subscribers, r.2)

/-- Observables of a subscribe call: resulting subscriber set and whether the
function was registered. -/
def subObs (r : CtxState × Bool) : List Nat × Bool :=
  (r.1.subscribers, r.2)

/-! ## UltraRouter -/

/-- Result of matchRoute: whether the route matched, whether it matched as the
wildcard fallback, and the params bound from :name segments. The params Record
is modelled as an association list in binding order. -/
structure RMatch where
  matched : Bool
  isWildcard : Bool
  params : List (String × String)
deriving DecidableEq

/-- Embedding of matchRoute. First the verbatim-equality fast path (no params,
not a wildcard), then the wildcard pattern, then segmentwise comparison after
splitting on / and dropping empty segments: a :name route segment binds the
path segment, any other segment must be equal, and segment counts must be
equal. -/
def matchSegs : List String → List String → Option (List (String × String))
  | [], [] => some []
  | r :: rs, p :: ps =>
    if isParamSeg r then (matchSegs rs ps).map (fun m => (paramName r, p) :: m)
    else if r == p then matchSegs rs ps
    else none
  | _, _ => none

def matchRoute (routePath currentPath : String) : RMatch :=
  if routePath == currentPath then { matched := true, isWildcard := false, params := [] }
  else if routePath == "/*" then { matched := true, isWildcard := true, params := [] }
  else
    let routeParts := splitPath routePath
    let pathParts := splitPath currentPath
    if routeParts.length != pathParts.length then
      { matched := false, isWildcard := false, params := [] }
    else
      match matchSegs routeParts pathParts with
      | some ps => { matched := true, isWildcard := false, params := ps }
      | none => { matched := false, isWildcard := false, params := [] }

/-- A route table entry. component factories are user code outside the router;
what the router observes of the built node is only whether it exposes a
cleanup, so a route is modelled by its pattern together with the optional
cleanup id of the node its factory builds. -/
structure MRoute where
  path : String
  cleanupId : Option Nat
deriving DecidableEq

/-- Observable events of a render pass: an invocation of a stored aggregate
cleanup, or an invocation of the component factory of the route at the given
table index (followed by parsing its output). -/
inductive REvent : Type where
  | cleanupRun : Nat → REvent
  | buildRun : Nat → REvent
deriving DecidableEq

def REvent.isBuild : REvent → Bool
  | .buildRun _ => true
  | .cleanupRun _ => false

/-- Accumulator of the forEach scan in renderRoute: the chosen target (index
and bound params), the most recent wildcard candidate, and the factory
invocation events so far. -/
structure ScanAcc where
  target : Option (Nat × List (String × String))
  wildcard : Option Nat
  events : List REvent
deriving DecidableEq

/-- One iteration of the forEach in renderRoute, for the route at table index
i: a matched non-wildcard route is built and becomes the target if no target
exists yet; a wildcard match is always built and recorded (overwriting any
earlier wildcard candidate); otherwise nothing happens. -/
def scanStep (path : String) (acc : ScanAcc) (i : Nat) (r : MRoute) : ScanAcc :=
  if (matchRoute r.path path).matched && !(matchRoute r.path path).isWildcard
      && acc.target.isNone then
    { target := some (i, (matchRoute r.path path).params), wildcard := acc.wildcard,
      events := acc.events ++ [REvent.buildRun i] }
  else if (matchRoute r.path path).matched && (matchRoute r.path path).isWildcard then
    { target := acc.target, wildcard := some i,
      events := acc.events ++ [REvent.buildRun i] }
  else acc

/-- The forEach over the route table, carrying the running table index. -/
def scanFrom (path : String) : Nat → ScanAcc → List MRoute → ScanAcc
  | _, acc, [] => acc
  | i, acc, r :: rs => scanFrom path (i + 1) (scanStep path acc i r) rs

def scanRoutes (routes : List MRoute) (path : String) : ScanAcc :=
  scanFrom path 0 { target := none, wildcard := none, events := [] } routes

/-- Which route the pass renders into the container. -/
inductive Rendered : Type where
  | target : Nat → List (String × String) → Rendered
  | wildcard : Nat → Rendered
deriving DecidableEq

/-- Embedding of the post-scan resolution: the target if one matched,
otherwise the recorded wildcard node if any. -/
def selectRoute (routes : List MRoute) (path : String) : Option Rendered :=
  match (scanRoutes routes path).target with
  | some (i, ps) => some (.target i ps)
  | none => (scanRoutes routes path).wildcard.map .wildcard

/-- The aggregate cleanup exposed by the rendered node, if any: the cleanup id
of the winning route. -/
def renderedCleanup (routes : List MRoute) : Option Rendered → Option Nat
  | some (.target i _) => (routes.get? i).bind (fun r => r.cleanupId)
  | some (.wildcard i) => (routes.get? i).bind (fun r => r.cleanupId)
  | none => none

/-- One renderRoute call: run the stored cleanup first (if any), then scan the
table building components, then append the winner. The stored cleanup is
REPLACED only when the new node exposes a _cleanup of its own - the source has
no else branch clearing it - so when the new node exposes none, the previous
value is silently retained. Returns the new currentCleanup and the event
trace of the pass. -/
def cleanupPre : Option Nat → List REvent
  | some c => [REvent.cleanupRun c]
  | none => []

def renderRoutePass (cur : Option Nat) (routes : List MRoute) (path : String) :
    Option Nat × List REvent :=
  ((match renderedCleanup routes (selectRoute routes path) with
    | some c => some c
    | none => cur),
   cleanupPre cur ++ (scanRoutes routes path).events)

/-- A sequence of renderRoute calls (the initial render followed by popstate
navigations), threading currentCleanup and concatenating the traces. -/
def navSequence (routes : List MRoute) : Option Nat → List String → Option Nat × List REvent
  | cur, [] => (cur, [])
  | cur, p :: ps =>
    let r := renderRoutePass cur routes p
    let rest := navSequence routes r.1 ps
    (rest.1, r.2 ++ rest.2)

/-- Modelled from the claim wording for comparison with the code: the first
route in table order whose pattern is not the wildcard pattern and matches the
path, with its bound params. -/
def firstNonWildMatchFrom (path : String) : Nat → List MRoute → Option (Nat × List (String × String))
  | _, [] => none
  | i, r :: rs =>
    let m := matchRoute r.path path
    if r.path ≠ "/*" ∧ m.matched = true then some (i, m.params)
    else firstNonWildMatchFrom path (i + 1) rs

def firstNonWildMatch (routes : List MRoute) (path : String) :
    Option (Nat × List (String × String)) :=
  firstNonWildMatchFrom path 0 routes

/-! ## The aggregate cleanup of UltraComponent -/

/-- One collected teardown entry of a node: its identity and whether invoking
it throws. -/
structure TDown where
  id : Nat
  throws : Bool
deriving DecidableEq

/-- Invoking one teardown entry: the entry runs (its id is the observable) and
either returns normally or throws. -/
def invokeTDown (t : TDown) : Nat × Except String Unit :=
  (t.id, if t.throws then .error "cleanup threw" else .ok ())

/-- Embedding of node._cleanup: forEach over the collected entries, each
invocation wrapped in try/catch, so the loop continues past a throwing entry
exactly as it continues past a normal one. Returns the invocation log. -/
def runAggregateCleanup : List TDown → List Nat
  | [] => []
  | t :: rest =>
    match invokeTDown t with
    | (i, .ok _) => i :: runAggregateCleanup rest
    | (i, .error _) => i :: runAggregateCleanup rest

/-! ## Concrete instances used by counterexamples and witnesses -/

/-- The route table of the precedence scenario in the spec. -/
def demoRoutes : List MRoute :=
  [{ path := "/user/:id", cleanupId := none },
   { path := "/user/active", cleanupId := none },
   { path := "/*", cleanupId := none }]

/-- Wildcard listed first, then a parameterized route that matches any
one-segment path. -/
def cex4Routes : List MRoute :=
  [{ path := "/*", cleanupId := none }, { path := "/:x", cleanupId := none }]

/-- A parameterized route followed by the wildcard. -/
def cex10Routes : List MRoute :=
  [{ path := "/:x", cleanupId := none }, { path := "/*", cleanupId := none }]

/-- Route a builds a node exposing cleanup 0; the nodes of routes b and c
expose no cleanup of their own. -/
def staleRoutes : List MRoute :=
  [{ path := "/a", cleanupId := some 0 },
   { path := "/b", cleanupId := none },
   { path := "/c", cleanupId := none }]

/-- A containment relation where every node contains exactly itself. -/
def selfContains : Nat → Nat → Bool := fun o c => o == c

/-- A containment relation where node 0 contains itself and node 1; every
other pair is unrelated. -/
def wContains : Nat → Nat → Bool := fun o c => o == 0 && (c == 0 || c == 1)

/-- An owned context that legitimately holds the string undefined. -/
def ctxUndef : CtxState :=
  { displayName := "theme", owner := some 0, assigned := true,
    value := .vstr "undefined", subscribers := [] }

/-- An owned context (owner node 0) holding the string light. -/
def ctxLight : CtxState :=
  { displayName := "theme", owner := some 0, assigned := true,
    value := .vstr "light", subscribers := [] }

/-- A context not yet scoped: no owner assigned. -/
def ctxFree : CtxState :=
  { displayName := "theme", owner := none, assigned := false,
    value := .vstr "light", subscribers := [] }

/-- A tag-name assignment for witness nodes. -/
def tagDiv : Nat → String := fun _ => "DIV"

/-! ## Value-level lemmas -/

mutual

theorem allFrozen_deepFreeze (v : JSVal) : allFrozen (deepFreeze v) = true := by
  cases v with
  | vobj frozen fields =>
    simp [deepFreeze, allFrozen, allFrozenFields_deepFreezeFields]
  | vnull => rfl
  | vundef => rfl
  | vbool b => rfl
  | vnum n => rfl
  | vstr s => rfl

theorem allFrozenFields_deepFreezeFields (fs : JSFields) :
    allFrozenFields (deepFreezeFields fs) = true := by
  cases fs with
  | fnil => rfl
  | fcons k v rest =>
    simp [deepFreezeFields, allFrozenFields, allFrozen_deepFreeze,
      allFrozenFields_deepFreezeFields]

end

mutual

theorem stripFreeze_deepFreeze (v : JSVal) : stripFreeze (deepFreeze v) = stripFreeze v := by
  cases v with
  | vobj frozen fields =>
    simp [deepFreeze, stripFreeze, stripFreezeFields_deepFreezeFields]
  | vnull => rfl
  | vundef => rfl
  | vbool b => rfl
  | vnum n => rfl
  | vstr s => rfl

theorem stripFreezeFields_deepFreezeFields (fs : JSFields) :
    stripFreezeFields (deepFreezeFields fs) = stripFreezeFields fs := by
  cases fs with
  | fnil => rfl
  | fcons k v rest =>
    simp [deepFreezeFields, stripFreezeFields, stripFreeze_deepFreeze,
      stripFreezeFields_deepFreezeFields]

end

theorem storeVal_allFrozen (v : JSVal) : allFrozen (storeVal v) = true := by
  unfold storeVal
  split
  · exact allFrozen_deepFreeze v
  · cases v <;> first | rfl | (rename_i h; simp [typeofJS] at h)

theorem stripFreeze_storeVal (v : JSVal) : stripFreeze (storeVal v) = stripFreeze v := by
  unfold storeVal
  split
  · exact stripFreeze_deepFreeze v
  · rfl

theorem isPrimitive_typeof (v : JSVal) (hp : isPrimitive v = true) (hn : v ≠ .vnull) :
    typeofJS v ≠ "object" := by
  cases v <;> simp_all [isPrimitive, typeofJS]

/-! ## Cell lemmas -/

theorem cellSet_frozen (st : CellState) (v : JSVal) (h : allFrozen st.value = true) :
    allFrozen (cellSet st v).1.value = true
    ∧ ((cellSet st v).2.all fun p => allFrozen p.2) = true := by
  unfold cellSet
  split
  · exact ⟨h, rfl⟩
  · refine ⟨storeVal_allFrozen v, ?_⟩
    simp [List.all_eq_true, storeVal_allFrozen]

theorem cellSubscribe_value (st : CellState) (f : Nat) :
    (cellSubscribe st f).value = st.value := by
  unfold cellSubscribe
  split <;> rfl

theorem applySubs_value (fs : List Nat) : ∀ st : CellState,
    (applySubs st fs).value = st.value := by
  induction fs with
  | nil => intro st; rfl
  | cons f fs ih =>
    intro st
    rw [applySubs, ih, cellSubscribe_value]

theorem applySets_frozen (vs : List JSVal) : ∀ st : CellState,
    allFrozen st.value = true →
    allFrozen (applySets st vs).1.value = true
    ∧ ((applySets st vs).2.all fun p => allFrozen p.2) = true := by
  induction vs with
  | nil => intro st h; exact ⟨h, rfl⟩
  | cons v vs ih =>
    intro st h
    have h1 := cellSet_frozen st v h
    have h2 := ih (cellSet st v).1 h1.1
    refine ⟨h2.1, ?_⟩
    simp only [applySets, List.all_append, Bool.and_eq_true]
    exact ⟨h1.2, h2.2⟩

/-- Claim C9: ultraState deep-freezes every object value it stores. Starting
from any initial value, after any sequence of subscribe calls and any sequence
of set calls, the stored value is fully frozen (any object it contains is
frozen at every depth, so mutation attempts have no effect), and every value
delivered to a subscriber by a fire event is fully frozen as well. -/
theorem C9_deep_freeze_invariant (init : JSVal) (subs : List Nat) (vs : List JSVal) :
    allFrozen (applySets (applySubs (mkCell init) subs) vs).1.value = true
    ∧ ((applySets (applySubs (mkCell init) subs) vs).2.all fun p => allFrozen p.2) = true := by
  apply applySets_frozen
  rw [applySubs_value, mkCell]
  exact storeVal_allFrozen init

/-- Claim C2 counterexample: null is a JS primitive and null === null holds,
yet set(null) on a cell currently holding null fires the subscriber, because
the source guards the skip with typeof value !== "object" and typeof null is
"object". The claim that an identity-equal set on a primitive never fires is
therefore false at this input. -/
theorem C2_null_set_fires :
    isPrimitive JSVal.vnull = true
    ∧ jsEq JSVal.vnull JSVal.vnull = true
    ∧ (cellSet { value := JSVal.vnull, subscribers := [0] } JSVal.vnull).2
      = [(0, JSVal.vnull)] := by decide

/-- Claim C2 (amended): for a ReactiveCell made by ultraState, (1) if the
current value is a primitive OTHER THAN NULL and the incoming value is
identity-equal, nothing fires and the state is unchanged; (2) if the current
value is such a primitive and the incoming value is not identity-equal, every
registered subscriber receives exactly one fire event, in order, carrying the
stored form of the new value (identical to the new value up to frozenness
metadata); (3) if the current value is a proper object, every set call fires
every subscriber, even a set of a structurally identical object. -/
theorem C2_notify_semantics (st : CellState) (x y : JSVal) :
    (isPrimitive st.value = true → st.value ≠ .vnull → jsEq st.value x = true →
      cellSet st x = (st, []))
    ∧ (isPrimitive st.value = true → st.value ≠ .vnull → jsEq st.value y = false →
      (cellSet st y).2 = st.subscribers.map (fun s => (s, storeVal y))
      ∧ (cellSet st y).2.map Prod.fst = st.subscribers
      ∧ stripFreeze (storeVal y) = stripFreeze y)
    ∧ (∀ fr fs, st.value = .vobj fr fs →
      (cellSet st y).2 = st.subscribers.map (fun s => (s, storeVal y))
      ∧ (cellSet st y).2.map Prod.fst = st.subscribers) := by
  refine ⟨?_, ?_, ?_⟩
  · intro hp hn he
    have ht := isPrimitive_typeof st.value hp hn
    unfold cellSet
    simp [he, ht]
  · intro hp hn he
    have ht := isPrimitive_typeof st.value hp hn
    unfold cellSet
    simp [he, ht, stripFreeze_storeVal, Function.comp_def]
  · intro fr fs hv
    unfold cellSet
    simp [hv, typeofJS, Function.comp_def]

/-- Claim C2 witness: the amended statement evaluated on a cell holding the
number 0 with subscribers 0 and 1, and on a cell holding an unfrozen empty
object with subscriber 2. -/
theorem C2_notify_semantics_witness :
    cellSet { value := JSVal.vnum 0, subscribers := [0, 1] } (JSVal.vnum 0)
      = ({ value := JSVal.vnum 0, subscribers := [0, 1] }, [])
    ∧ (cellSet { value := JSVal.vnum 0, subscribers := [0, 1] } (JSVal.vnum 5)).2
      = [(0, JSVal.vnum 5), (1, JSVal.vnum 5)]
    ∧ (cellSet { value := JSVal.vobj false .fnil, subscribers := [2] }
        (JSVal.vobj false .fnil)).2
      = [(2, JSVal.vobj true .fnil)] := by
  refine ⟨?_, ?_, ?_⟩
  · exact (C2_notify_semantics { value := JSVal.vnum 0, subscribers := [0, 1] }
      (JSVal.vnum 0) (JSVal.vnum 0)).1 (by decide) (by decide) (by decide)
  · have h := (C2_notify_semantics { value := JSVal.vnum 0, subscribers := [0, 1] }
      (JSVal.vnum 0) (JSVal.vnum 5)).2.1 (by decide) (by decide) (by decide)
    exact h.1.trans (by decide)
  · have h := (C2_notify_semantics { value := JSVal.vobj false .fnil, subscribers := [2] }
      (JSVal.vnum 0) (JSVal.vobj false .fnil)).2.2 false .fnil rfl
    exact h.1.trans (by decide)

/-- Claim C8: the aggregate cleanup of a node built by UltraComponent invokes
every collected teardown entry, in registration order, regardless of which
entries throw (the per-entry try/catch isolates failures); in particular the
list of three entries whose second throws still runs the first and the third. -/
theorem C8_cleanup_isolation :
    (∀ entries : List TDown, runAggregateCleanup entries = entries.map TDown.id)
    ∧ runAggregateCleanup
        [{ id := 10, throws := false }, { id := 11, throws := true },
         { id := 12, throws := false }]
      = [10, 11, 12] := by
  constructor
  · intro entries
    induction entries with
    | nil => rfl
    | cons t rest ih =>
      cases t with
      | mk i thr => cases thr <;> simp [runAggregateCleanup, invokeTDown, ih]
  · decide

/-- Claim C1 evaluation at the failing input: routes /a (node exposes cleanup
0), /b and /c (no cleanup). Rendering /a, then navigating to /b and then to
/c makes renderRoute invoke cleanup 0 twice - once when the /a node is
displaced, and once again on the later navigation, because currentCleanup is
never cleared when the newly rendered node exposes no cleanup of its own.
The spec requires the displaced node cleanup to run exactly once. -/
theorem C1_stale_cleanup_runs_twice :
    (navSequence staleRoutes none ["/a", "/b", "/c"]).2
      = [REvent.buildRun 0, REvent.cleanupRun 0, REvent.buildRun 1,
         REvent.cleanupRun 0, REvent.buildRun 2]
    ∧ ((navSequence staleRoutes none ["/a", "/b", "/c"]).2.filter
        (fun e => e == REvent.cleanupRun 0)).length = 2 := by decide

/-! ## Route matching and scan lemmas -/

theorem matchRoute_wildcard_pattern (path : String) (hp : path ≠ "/*") :
    matchRoute "/*" path = { matched := true, isWildcard := true, params := [] } := by
  unfold matchRoute
  have h1 : (("/*" : String) == path) = false := by
    simp only [beq_eq_false_iff_ne, ne_eq]
    exact fun h => hp h.symm
  simp [h1]

theorem matchRoute_isWildcard_false (rp path : String) (hr : rp ≠ "/*") :
    (matchRoute rp path).isWildcard = false := by
  unfold matchRoute
  by_cases h1 : rp = path
  · simp [h1]
  · have h1' : (rp == path) = false := by simp [h1]
    have h2' : (rp == "/*") = false := by simp [hr]
    simp only [h1', h2', Bool.false_eq_true, if_false]
    split
    · rfl
    · split <;> rfl

theorem scanStep_target_some (path : String) (acc : ScanAcc) (i : Nat) (r : MRoute)
    (t : Nat × List (String × String)) (h : acc.target = some t) :
    (scanStep path acc i r).target = some t := by
  unfold scanStep
  split
  · rename_i hc
    rw [h] at hc
    simp at hc
  · split
    · exact h
    · exact h

theorem scanFrom_target_some (path : String) (rs : List MRoute) :
    ∀ (i : Nat) (acc : ScanAcc) (t : Nat × List (String × String)),
    acc.target = some t → (scanFrom path i acc rs).target = some t := by
  induction rs with
  | nil => intro i acc t h; exact h
  | cons r rs ih =>
    intro i acc t h
    exact ih (i + 1) (scanStep path acc i r) t (scanStep_target_some path acc i r t h)

theorem scanFrom_target_of_none (path : String) (hp : path ≠ "/*") (rs : List MRoute) :
    ∀ (i : Nat) (acc : ScanAcc), acc.target = none →
    (scanFrom path i acc rs).target = firstNonWildMatchFrom path i rs := by
  induction rs with
  | nil => intro i acc h; simpa [scanFrom, firstNonWildMatchFrom] using h
  | cons r rs ih =>
    intro i acc h
    rw [scanFrom, firstNonWildMatchFrom]
    by_cases hr : r.path = "/*"
    · have hm : matchRoute r.path path
          = { matched := true, isWildcard := true, params := [] } := by
        rw [hr]; exact matchRoute_wildcard_pattern path hp
      have hstep : (scanStep path acc i r).target = none := by
        unfold scanStep
        simp [hm, h]
      rw [ih (i + 1) (scanStep path acc i r) hstep]
      simp [hr]
    · have hw : (matchRoute r.path path).isWildcard = false :=
        matchRoute_isWildcard_false r.path path hr
      by_cases hmt : (matchRoute r.path path).matched = true
      · have hstep : scanStep path acc i r
            = ScanAcc.mk (some (i, (matchRoute r.path path).params)) acc.wildcard
                (acc.events ++ [REvent.buildRun i]) := by
          unfold scanStep
          simp [hmt, hw, h]
        rw [hstep]
        rw [scanFrom_target_some path rs (i + 1) _ (i, (matchRoute r.path path).params) rfl]
        simp [hr, hmt]
      · have hmf : (matchRoute r.path path).matched = false := by
          simpa using hmt
        have hstep : scanStep path acc i r = acc := by
          unfold scanStep
          simp [hmf]
        rw [hstep]
        rw [ih (i + 1) acc h]
        simp [hmf]

theorem scanStep_events_mono (path : String) (acc : ScanAcc) (i : Nat) (r : MRoute)
    (e : REvent) (h : e ∈ acc.events) : e ∈ (scanStep path acc i r).events := by
  unfold scanStep
  split
  · exact List.mem_append_left _ h
  · split
    · exact List.mem_append_left _ h
    · exact h

theorem scanFrom_events_mono (path : String) (rs : List MRoute) :
    ∀ (i : Nat) (acc : ScanAcc) (e : REvent),
    e ∈ acc.events → e ∈ (scanFrom path i acc rs).events := by
  induction rs with
  | nil => intro i acc e h; exact h
  | cons r rs ih =>
    intro i acc e h
    exact ih (i + 1) _ e (scanStep_events_mono path acc i r e h)

theorem scanFrom_builds_wildcard (path : String) (hp : path ≠ "/*") (rs : List MRoute) :
    ∀ (k i : Nat) (acc : ScanAcc) (r : MRoute),
    rs.get? k = some r → r.path = "/*" →
    REvent.buildRun (i + k) ∈ (scanFrom path i acc rs).events := by
  induction rs with
  | nil => intro k i acc r h; simp at h
  | cons r0 rs ih =>
    intro k i acc r hget hw
    cases k with
    | zero =>
      have hr0 : r0 = r := by simpa using hget
      have hm : matchRoute r0.path path
          = { matched := true, isWildcard := true, params := [] } := by
        rw [hr0, hw]; exact matchRoute_wildcard_pattern path hp
      have hstep : (scanStep path acc i r0).events
          = acc.events ++ [REvent.buildRun i] := by
        unfold scanStep
        simp [hm]
      rw [scanFrom]
      refine scanFrom_events_mono path rs (i + 1) _ _ ?_
      rw [hstep]
      simp
    | succ k' =>
      have hget' : rs.get? k' = some r := by simpa using hget
      have := ih k' (i + 1) (scanStep path acc i r0) r hget' hw
      rw [scanFrom]
      have harith : i + 1 + k' = i + (k' + 1) := by omega
      rwa [harith] at this

theorem scanFrom_events_build (path : String) (rs : List MRoute) :
    ∀ (i : Nat) (acc : ScanAcc),
    (∀ e ∈ acc.events, e.isBuild = true) →
    ∀ e ∈ (scanFrom path i acc rs).events, e.isBuild = true := by
  induction rs with
  | nil => intro i acc h; exact h
  | cons r rs ih =>
    intro i acc h
    refine ih (i + 1) (scanStep path acc i r) ?_
    intro e he
    unfold scanStep at he
    split at he
    · rcases List.mem_append.mp he with h1 | h1
      · exact h e h1
      · simp at h1; subst h1; rfl
    · split at he
      · rcases List.mem_append.mp he with h1 | h1
        · exact h e h1
        · simp at h1; subst h1; rfl
      · exact h e he

/-! ## Router claim theorems -/

/-- Claim C4 counterexample: with the current path being the literal string
slash-star, the wildcard route pattern matches it through the verbatim
equality fast path and is therefore treated as a NON-wildcard first match: the
router renders the wildcard route (table index 0) even though the non-wildcard
pattern /:x (table index 1) matches the path. This contradicts the claim that
the wildcard route is rendered only if no non-wildcard route matched. -/
theorem C4_wildcard_path_cex :
    (cex4Routes.get? 0).map MRoute.path = some "/*"
    ∧ (matchRoute "/:x" "/*").matched = true
    ∧ ("/:x" : String) ≠ "/*"
    ∧ selectRoute cex4Routes "/*" = some (.target 0 []) := by decide

/-- Claim C4 (amended): for every route table and every current path OTHER
THAN the literal slash-star path, the router renders the first route in table
order whose non-wildcard pattern matches the path, binding :name segments into
the params map; a wildcard route is rendered only if no non-wildcard route
matched, regardless of the wildcard position in the table. In particular, with
routes /user/:id, /user/active, /* and path /user/active, the first route wins
with id bound to active. -/
theorem C4_first_match_precedence (routes : List MRoute) (path : String)
    (hp : path ≠ "/*") :
    (∀ i ps, firstNonWildMatch routes path = some (i, ps) →
      selectRoute routes path = some (.target i ps))
    ∧ (∀ k, selectRoute routes path = some (.wildcard k) →
      firstNonWildMatch routes path = none)
    ∧ selectRoute demoRoutes "/user/active"
      = some (.target 0 [("id", "active")]) := by
  have key : (scanRoutes routes path).target = firstNonWildMatch routes path :=
    scanFrom_target_of_none path hp routes 0 (ScanAcc.mk none none []) rfl
  refine ⟨?_, ?_, by decide⟩
  · intro i ps hfirst
    unfold selectRoute
    rw [key, hfirst]
  · intro k hsel
    unfold selectRoute at hsel
    rw [key] at hsel
    cases hfm : firstNonWildMatch routes path with
    | none => rfl
    | some t =>
      rw [hfm] at hsel
      simp at hsel

/-- Claim C4 witness: the amended precedence theorem applied to the concrete
table of the spec scenario at path /user/active. -/
theorem C4_first_match_precedence_witness :
    firstNonWildMatch demoRoutes "/user/active" = some (0, [("id", "active")])
    ∧ selectRoute demoRoutes "/user/active" = some (.target 0 [("id", "active")]) :=
  ⟨by decide,
   (C4_first_match_precedence demoRoutes "/user/active" (by decide)).1
     0 [("id", "active")] (by decide)⟩

/-- Claim C10 counterexample: with current path the literal slash-star and a
table whose non-wildcard route /:x (index 0) precedes the wildcard route
(index 1), the render pass trace contains no factory invocation for the
wildcard route: its component factory is NOT invoked on this pass, because the
wildcard pattern matched the path verbatim as a non-wildcard match and the
target slot was already taken. -/
theorem C10_wildcard_not_built_cex :
    (cex10Routes.get? 1).map MRoute.path = some "/*"
    ∧ (renderRoutePass none cex10Routes "/*").2 = [REvent.buildRun 0] := by decide

/-- Claim C10 (amended): on every render pass whose current path is not the
literal slash-star, every wildcard route in the table has its component
factory invoked and its output parsed (a buildRun event for its index is in
the pass trace) even when an earlier non-wildcard route already matched; and
whenever some non-wildcard route matched, the pass renders that target, so the
wildcard node that was built is discarded. -/
theorem C10_wildcard_always_built (cur : Option Nat) (routes : List MRoute)
    (path : String) (i : Nat) (r : MRoute) (hp : path ≠ "/*")
    (hget : routes.get? i = some r) (hw : r.path = "/*") :
    REvent.buildRun i ∈ (renderRoutePass cur routes path).2
    ∧ (∀ t, (scanRoutes routes path).target = some t →
      selectRoute routes path = some (.target t.1 t.2)) := by
  constructor
  · unfold renderRoutePass
    refine List.mem_append_right _ ?_
    have := scanFrom_builds_wildcard path hp routes i 0
      (ScanAcc.mk none none []) r hget hw
    simpa using this
  · intro t ht
    unfold selectRoute
    rw [ht]

/-- Claim C10 witness: in the spec scenario table, the wildcard route at index
2 is built on the pass for /user/active although route 0 already matched. -/
theorem C10_wildcard_always_built_witness :
    REvent.buildRun 2 ∈ (renderRoutePass none demoRoutes "/user/active").2 :=
  (C10_wildcard_always_built none demoRoutes "/user/active" 2
    (MRoute.mk "/*" none) (by decide) (by decide) rfl).1

/-- Claim C7: (a) within any render pass, every cleanup invocation of the
previous render occurs strictly before every component factory invocation of
the new render - teardown precedes rebuild; (b) once a subscriber has been
removed from a cell by the unsubscribe handle its cleanup stored, no later set
on that cell fires it. -/
theorem C7_teardown_before_rebuild :
    (∀ (cur : Option Nat) (routes : List MRoute) (path : String) (i j c b : Nat),
      (renderRoutePass cur routes path).2[i]? = some (REvent.cleanupRun c) →
      (renderRoutePass cur routes path).2[j]? = some (REvent.buildRun b) →
      i < j)
    ∧ (∀ (st : CellState) (f : Nat) (v : JSVal),
      ((cellSet (cellUnsub st f) v).2.all fun p => p.1 != f) = true) := by
  constructor
  · intro cur routes path i j c b hi hj
    have hev : ∀ e ∈ (scanRoutes routes path).events, e.isBuild = true := by
      refine scanFrom_events_build path routes 0 (ScanAcc.mk none none []) ?_
      intro e he
      simp at he
    have hpre : ∀ e ∈ cleanupPre cur, e.isBuild = false := by
      intro e he
      cases cur with
      | none => simp [cleanupPre] at he
      | some c0 =>
        simp [cleanupPre] at he
        subst he
        rfl
    unfold renderRoutePass at hi hj
    simp only at hi hj
    by_cases hilt : i < (cleanupPre cur).length
    · by_cases hjlt : j < (cleanupPre cur).length
      · rw [List.getElem?_append_left hjlt] at hj
        have hmem := List.getElem?_mem hj
        have := hpre _ hmem
        simp [REvent.isBuild] at this
      · omega
    · push_neg at hilt
      rw [List.getElem?_append_right hilt] at hi
      have hmem := List.getElem?_mem hi
      have := hev _ hmem
      simp [REvent.isBuild] at this
  · intro st f v
    unfold cellSet cellUnsub
    split
    · rfl
    · simp only [List.all_eq_true, List.mem_map]
      rintro p ⟨s, hs, rfl⟩
      have := (List.mem_filter.mp hs).2
      simpa using this

/-- Claim C7 witness: the ordering statement on the pass that navigates away
from a render with cleanup 7, and the no-fire-after-unsubscribe statement on a
cell with subscribers 3 and 4 after removing 3. -/
theorem C7_teardown_before_rebuild_witness :
    (renderRoutePass (some 7) staleRoutes "/b").2[0]? = some (REvent.cleanupRun 7)
    ∧ (0 : Nat) < 1
    ∧ ((cellSet (cellUnsub (CellState.mk (.vnum 0) [3, 4]) 3) (.vnum 1)).2.all
        fun p => p.1 != 3) = true :=
  ⟨by decide,
   C7_teardown_before_rebuild.1 (some 7) staleRoutes "/b" 0 1 7 1 (by decide) (by decide),
   C7_teardown_before_rebuild.2 (CellState.mk (.vnum 0) [3, 4]) 3 (.vnum 1)⟩

/-! ## Context claim theorems -/

/-- Claim C3: reachability gating of UltraContext. Before own is called every
candidate (including none) is reachable, get returns the value and subscribe
registers; after own, a call whose candidate the owner contains behaves like
the un-scoped operation (same observable value, subscriber set and fire
events as on the owner-erased context), while a call with no candidate or
with a candidate the owner does not contain returns the sentinel string
undefined for get, is a state-preserving silent no-op for set, and registers
nothing for subscribe (the returned unsubscribe is a no-op and the function
never fires). -/
theorem C3_reachability_gating (contains : Nat → Nat → Bool) (st : CtxState)
    (v : JSVal) (f : Nat) :
    (st.owner = none → ∀ cand,
      canReach contains st cand = true
      ∧ ctxGet contains st cand = st.value
      ∧ (ctxSubscribe contains st f cand).2 = true)
    ∧ (∀ O c, st.owner = some O → contains O c = true →
      ctxGet contains st (some c) = st.value
      ∧ setObs (ctxSet contains st v (some c))
        = setObs (ctxSet contains (eraseOwner st) v (some c))
      ∧ subObs (ctxSubscribe contains st f (some c))
        = subObs (ctxSubscribe contains (eraseOwner st) f (some c)))
    ∧ (∀ O, st.owner = some O →
      ctxGet contains st none = .vstr "undefined"
      ∧ ctxSet contains st v none = (st, [])
      ∧ ctxSubscribe contains st f none = (st, false))
    ∧ (∀ O u, st.owner = some O → contains O u = false →
      ctxGet contains st (some u) = .vstr "undefined"
      ∧ ctxSet contains st v (some u) = (st, [])
      ∧ ctxSubscribe contains st f (some u) = (st, false)) := by
  have herase : ∀ cand, canReach contains (eraseOwner st) cand = true := by
    intro cand
    simp [canReach, eraseOwner]
  refine ⟨?_, ?_, ?_, ?_⟩
  · intro h cand
    have h1 : canReach contains st cand = true := by simp [canReach, h]
    refine ⟨h1, ?_, ?_⟩
    · simp [ctxGet, h1]
    · by_cases hmem : f ∈ st.subscribers <;>
        simp [ctxSubscribe, h1, hmem]
  · intro O c hO hc
    refine ⟨?_, ?_, ?_⟩
    · simp [ctxGet, canReach, hO, hc]
    · by_cases hcond : (typeofJS st.value != "object" && jsEq st.value v) = true <;>
        simp [ctxSet, canReach, hO, hc, eraseOwner, setObs, hcond]
    · by_cases hmem : f ∈ st.subscribers <;>
        simp [ctxSubscribe, canReach, hO, hc, eraseOwner, subObs, hmem]
  · intro O hO
    have h0 : canReach contains st none = false := by simp [canReach, hO]
    exact ⟨by simp [ctxGet, h0], by simp [ctxSet, h0], by simp [ctxSubscribe, h0]⟩
  · intro O u hO hu
    have h0 : canReach contains st (some u) = false := by simp [canReach, hO, hu]
    exact ⟨by simp [ctxGet, h0], by simp [ctxSet, h0], by simp [ctxSubscribe, h0]⟩

/-- Claim C3 witness: the gating theorem evaluated on the un-scoped context
ctxFree with an arbitrary candidate, and on the owned context ctxLight with a
reachable candidate (node 1), a missing candidate, and an unrelated candidate
(node 2). -/
theorem C3_reachability_gating_witness :
    canReach wContains ctxFree (some 5) = true
    ∧ ctxGet wContains ctxLight (some 1) = .vstr "light"
    ∧ ctxGet wContains ctxLight none = .vstr "undefined"
    ∧ ctxSet wContains ctxLight (.vstr "dark") (some 2) = (ctxLight, [])
    ∧ ctxSubscribe wContains ctxLight 9 (some 2) = (ctxLight, false) :=
  ⟨((C3_reachability_gating wContains ctxFree (.vstr "dark") 9).1 rfl (some 5)).1,
   ((C3_reachability_gating wContains ctxLight (.vstr "dark") 9).2.1 0 1 rfl (by decide)).1,
   ((C3_reachability_gating wContains ctxLight (.vstr "dark") 9).2.2.1 0 rfl).1,
   ((C3_reachability_gating wContains ctxLight (.vstr "dark") 9).2.2.2 0 2 rfl
     (by decide)).2.1,
   ((C3_reachability_gating wContains ctxLight (.vstr "dark") 9).2.2.2 0 2 rfl
     (by decide)).2.2⟩

/-- Claim C5: on a context whose own has already succeeded (starting from any
unassigned context), a second own call fails with the ownership-conflict
message naming the caller-supplied display name and the tag name of the
existing owner, and the failed call leaves the context exactly as it was:
same owner, same stored value, same subscriber set. -/
theorem C5_own_conflict (tagName : Nat → String) (st : CtxState) (n m : Nat)
    (h : st.assigned = false) :
    (ctxOwn tagName (ctxOwn tagName st n).2 m).1
      = some ("UltraContext: context owner for \"" ++ st.displayName
          ++ "\" cannot be reassigned.\n" ++ "Current owner: "
          ++ (if tagName n == "" then "null" else tagName n) ++ ".")
    ∧ (ctxOwn tagName (ctxOwn tagName st n).2 m).2 = (ctxOwn tagName st n).2
    ∧ (ctxOwn tagName st n).2.owner = some n
    ∧ (ctxOwn tagName st n).2.value = st.value
    ∧ (ctxOwn tagName st n).2.subscribers = st.subscribers := by
  unfold ctxOwn ownErrMsg
  simp [h]

/-- Claim C5 witness: the conflict theorem evaluated on the unassigned context
ctxFree owned by node 3 and then re-owned by node 4 under the tag assignment
tagDiv. -/
theorem C5_own_conflict_witness :
    (ctxOwn tagDiv (ctxOwn tagDiv ctxFree 3).2 4).1
      = some "UltraContext: context owner for \"theme\" cannot be reassigned.\nCurrent owner: DIV."
    ∧ (ctxOwn tagDiv (ctxOwn tagDiv ctxFree 3).2 4).2 = (ctxOwn tagDiv ctxFree 3).2 := by
  have h := C5_own_conflict tagDiv ctxFree 3 4 rfl
  exact ⟨h.1.trans (by decide), h.2.1⟩

/-- Claim C6 counterexample: a context of string type legitimately holding the
string undefined. A reachable read and an unreachable read both return the
string undefined, so the sentinel is NOT distinct from every valid value of
the context type and the two reads are indistinguishable. -/
theorem C6_sentinel_collision :
    canReach selfContains ctxUndef (some 0) = true
    ∧ canReach selfContains ctxUndef (some 1) = false
    ∧ ctxGet selfContains ctxUndef (some 0) = ctxGet selfContains ctxUndef (some 1) := by
  decide

/-- Claim C6 (amended): an unreachable read returns the concrete string
undefined; this sentinel is distinguishable from a reachable read whenever the
stored value is not itself the string undefined (for a context whose value
space contains the string undefined, the two coincide and are not
distinguishable). -/
theorem C6_sentinel_value (contains : Nat → Nat → Bool) (st : CtxState)
    (cand : Option Nat) (h : canReach contains st cand = false) :
    ctxGet contains st cand = .vstr "undefined"
    ∧ (st.value ≠ .vstr "undefined" → ∀ cand2, canReach contains st cand2 = true →
      ctxGet contains st cand2 ≠ ctxGet contains st cand) := by
  constructor
  · simp [ctxGet, h]
  · intro hv cand2 h2
    simp [ctxGet, h, h2]
    exact hv

/-- Claim C6 witness: the amended sentinel theorem evaluated on the owned
context ctxLight: the unreachable read via candidate 1 yields the sentinel and
differs from the reachable read via candidate 0. -/
theorem C6_sentinel_value_witness :
    ctxGet selfContains ctxLight (some 1) = .vstr "undefined"
    ∧ ctxGet selfContains ctxLight (some 0) ≠ ctxGet selfContains ctxLight (some 1) :=
  ⟨(C6_sentinel_value selfContains ctxLight (some 1) (by decide)).1,
   (C6_sentinel_value selfContains ctxLight (some 1) (by decide)).2
     (by decide) (some 0) (by decide)⟩

end UltraLight
